import Mathlib

/-!
Shallow embedding of the Manx Utilities Home Assistant integration
(`manx_utilities/api.py` and `manx_utilities/sensor.py`).

Modelling conventions:
* Instants are seconds since the Unix epoch (`Nat`); `datetime` values are
  kept as seconds, so the `replace(hour=0, minute=0, second=0,
  microsecond=0)` style field surgery of the source becomes arithmetic on
  seconds.  The local timezone offset is taken to be zero, so
  `datetime.fromtimestamp` and `datetime.utcnow` live on the same axis.
* Python floats are modelled as exact rationals (`ℚ`); Python's `round`
  is round-half-to-even, embedded as `pyRound` / `round_dp`.
* `collections.deque` with `maxlen` 2880 is a list together with the
  append-with-eviction operation `dequeAppend`.
* Network traffic is passed in explicitly: every HTTP response the code
  would await is a parameter of the embedded function, and the client
  returns the list of requests it issued together with its result, so the
  retry behaviour is observable in the model.
-/

/-- Seconds in one civil day. -/
def secsPerDay : Nat := 86400

/-- Python's `date.weekday()` on a day number: Monday = 0 … Sunday = 6.
Day 0 of the epoch (1970-01-01) was a Thursday, i.e. weekday 3. -/
def weekdayOfDay (d : Nat) : Nat := (d + 3) % 7

/-- Civil date (year, month, day) from a count of days since 1970-01-01,
by the standard era-based Gregorian algorithm (days ≥ 0 only, which is all
the source can see: its timestamps come from the provider's epoch data). -/
def civilFromDays (z : Nat) : Nat × Nat × Nat :=
  let z := z + 719468
  let era := z / 146097
  let doe := z % 146097
  let yoe := (doe - doe / 1460 + doe / 36524 - doe / 146096) / 365
  let y := yoe + era * 400
  let doy := doe - (365 * yoe + yoe / 4 - yoe / 100)
  let mp := (5 * doy + 2) / 153
  let d := doy - (153 * mp + 2) / 5 + 1
  let m := if mp < 10 then mp + 3 else mp - 9
  (if m ≤ 2 then y + 1 else y, m, d)

/-- Days since 1970-01-01 of a civil date (years ≥ 1970). -/
def daysFromCivil (y m d : Nat) : Nat :=
  let y := if m ≤ 2 then y - 1 else y
  let era := y / 400
  let yoe := y % 400
  let mp := if 2 < m then m - 3 else m + 9
  let doy := (153 * mp + 2) / 5 + d - 1
  let doe := yoe * 365 + yoe / 4 - yoe / 100 + doy
  era * 146097 + doe - 719468

/-- Midnight of the day containing the instant `ts`: the source's
`current_time.replace(hour=0, minute=0, second=0, microsecond=0)`. -/
def dayStart (ts : Nat) : Nat := ts - ts % secsPerDay

/-- Midnight of the Monday of the week containing `ts`: the source
subtracts `timedelta(days=current_time.weekday())` and then zeroes the
time-of-day fields. -/
def weekStart (ts : Nat) : Nat :=
  dayStart ts - secsPerDay * weekdayOfDay (ts / secsPerDay)

/-- Midnight of the first day of the month containing `ts`: the source's
`current_time.replace(day=1, hour=0, minute=0, second=0, microsecond=0)`. -/
def monthStart (ts : Nat) : Nat :=
  let c := civilFromDays (ts / secsPerDay)
  secsPerDay * daysFromCivil c.1 c.2.1 1

/-- Floor of a rational, computed from its numerator and denominator so
that the kernel can evaluate it. -/
def qfloor (q : ℚ) : Int := q.num / (q.den : Int)

theorem qfloor_eq_floor (q : ℚ) : qfloor q = ⌊q⌋ := Rat.floor_def.symm

/-- Python's built-in `round` to the nearest integer, ties to even. -/
def pyRound (q : ℚ) : Int :=
  let f := qfloor q
  let r := q - (f : ℚ)
  if r < 1 / 2 then f
  else if 1 / 2 < r then f + 1
  else if f % 2 = 0 then f else f + 1

/-- Python's two-argument `round(x, n)`. -/
def round_dp (n : Nat) (q : ℚ) : ℚ := (pyRound (q * 10 ^ n) : ℚ) / 10 ^ n

theorem le_pyRound (q : ℚ) : qfloor q ≤ pyRound q := by
  unfold pyRound
  dsimp only
  split_ifs <;> omega

theorem pyRound_le (q : ℚ) : pyRound q ≤ qfloor q + 1 := by
  unfold pyRound
  dsimp only
  split_ifs <;> omega

theorem pyRound_mono {a b : ℚ} (hab : a ≤ b) : pyRound a ≤ pyRound b := by
  rcases lt_or_le (qfloor a) (qfloor b) with h | h
  · calc pyRound a ≤ qfloor a + 1 := pyRound_le a
      _ ≤ qfloor b := by omega
      _ ≤ pyRound b := le_pyRound b
  · have h2 : qfloor a ≤ qfloor b := by
      rw [qfloor_eq_floor, qfloor_eq_floor]
      exact Int.floor_le_floor hab
    have heq : qfloor b = qfloor a := le_antisymm h h2
    have hfrac : a - (qfloor a : ℚ) ≤ b - (qfloor b : ℚ) := by
      rw [heq]
      exact sub_le_sub_right hab _
    unfold pyRound
    dsimp only
    rw [heq]
    rw [heq] at hfrac
    split_ifs <;> first | omega | (exfalso; linarith)

theorem pyRound_eq_zero_of (hq : (0 : ℚ) ≤ q) (hq2 : q ≤ 1 / 2) : pyRound q = 0 := by
  have hf : qfloor q = 0 := by
    rw [qfloor_eq_floor]
    rw [Int.floor_eq_zero_iff]
    constructor
    · exact hq
    · linarith
  unfold pyRound
  rw [hf]
  push_cast
  split_ifs with h1 h2 <;> first | rfl | (exfalso; try linarith)

theorem one_le_pyRound_of (hq : (1 : ℚ) / 2 < q) : 1 ≤ pyRound q := by
  have hf : 0 ≤ qfloor q := by
    rw [qfloor_eq_floor]
    exact Int.floor_nonneg.mpr (by linarith)
  rcases Nat.lt_or_ge 0 (qfloor q).toNat with h | h
  · have : 1 ≤ qfloor q := by omega
    calc (1 : Int) ≤ qfloor q := this
      _ ≤ pyRound q := le_pyRound q
  · have hf0 : qfloor q = 0 := by omega
    unfold pyRound
    rw [hf0]
    push_cast
    have hq' : ¬ (q - 0 < 1 / 2) := by push_neg; linarith
    split_ifs <;> first | omega | (exfalso; simp at *; linarith)

theorem pyRound_eq_zero_iff (hq : (0 : ℚ) ≤ q) : pyRound q = 0 ↔ q ≤ 1 / 2 := by
  constructor
  · intro h
    by_contra hlt
    push_neg at hlt
    have := one_le_pyRound_of hlt
    omega
  · intro h
    exact pyRound_eq_zero_of hq h

theorem round_dp_mono (n : Nat) {a b : ℚ} (hab : a ≤ b) :
    round_dp n a ≤ round_dp n b := by
  unfold round_dp
  have h10 : (0 : ℚ) < 10 ^ n := by positivity
  have h1 : a * 10 ^ n ≤ b * 10 ^ n :=
    mul_le_mul_of_nonneg_right hab (le_of_lt h10)
  have h2 : ((pyRound (a * 10 ^ n) : ℚ)) ≤ (pyRound (b * 10 ^ n) : ℚ) := by
    exact_mod_cast pyRound_mono h1
  gcongr

theorem round_dp3_eq_zero_iff {q : ℚ} (hq : 0 ≤ q) :
    round_dp 3 q = 0 ↔ q ≤ 1 / 2000 := by
  unfold round_dp
  rw [div_eq_zero_iff]
  have hne : ((10 : ℚ) ^ 3) ≠ 0 := by norm_num
  have hcast : ((pyRound (q * 10 ^ 3) : ℚ) = 0) ↔ pyRound (q * 10 ^ 3) = 0 :=
    Int.cast_eq_zero
  rw [or_iff_left hne, hcast, pyRound_eq_zero_iff (by positivity)]
  constructor <;> intro h <;> nlinarith

/-- One stored reading: (epoch timestamp, value). -/
abbrev Reading := Nat × ℚ

/-- Capacity of each per-type history: `deque(maxlen=2880)`. -/
def HIST_MAXLEN : Nat := 2880

/-- Append to a bounded `deque`: when the buffer is full the oldest
element (the head) is evicted first. -/
def dequeAppend (cap : Nat) (xs : List Reading) (x : Reading) : List Reading :=
  if cap ≤ xs.length then xs.tail ++ [x] else xs ++ [x]

theorem dequeAppend_length_le {cap : Nat} (hcap : 0 < cap)
    {xs : List Reading} (h : xs.length ≤ cap) (x : Reading) :
    (dequeAppend cap xs x).length ≤ cap := by
  unfold dequeAppend
  split <;> simp [List.length_tail] <;> omega

theorem dequeAppend_of_lt {cap : Nat} {xs : List Reading} (h : xs.length < cap)
    (x : Reading) : dequeAppend cap xs x = xs ++ [x] := by
  unfold dequeAppend
  rw [if_neg (by omega)]

/-- `ManxUtilitiesAPI._get_time_range` in epoch seconds: subtract one hour
from now, zero the sub-minute fields, snap the minute to :00 or :30, and
add 29 minutes for the upper bound of the window. -/
def get_time_range (nowUtc : Nat) : Nat × Nat :=
  let now := nowUtc - 3600
  let minute := now / 60 % 60
  let hourStart := now - now % 3600
  let from_time := if 30 ≤ minute then hourStart + 1800 else hourStart
  (from_time, from_time + 29 * 60)

theorem get_time_range_eq (nowUtc : Nat) :
    get_time_range nowUtc =
      ((nowUtc - 3600) - (nowUtc - 3600) % 1800,
       (nowUtc - 3600) - (nowUtc - 3600) % 1800 + 1740) := by
  unfold get_time_range
  dsimp only
  split <;> rename_i h <;> refine Prod.ext ?_ ?_ <;> simp only [] <;> omega

/-- Reading type selector: the source passes the literals `"cost"` and
`"energy"`. -/
inductive RType
  | cost
  | energy
deriving DecidableEq

/-- The mutable state of a `ManxUtilitiesAPI` instance. -/
structure ClientState where
  username : String
  password : String
  cost_resource_id : String
  energy_resource_id : String
  token : Option String
  session : Bool
  histCost : List Reading
  histEnergy : List Reading
deriving DecidableEq

/-- `self._historical_values[reading_type]`. -/
def hist (st : ClientState) : RType → List Reading
  | .cost => st.histCost
  | .energy => st.histEnergy

/-- Overwrite one history. -/
def setHist (st : ClientState) : RType → List Reading → ClientState
  | .cost, h => { st with histCost := h }
  | .energy, h => { st with histEnergy := h }

/-- `self._cost_resource_id if reading_type == "cost" else
self._energy_resource_id`. -/
def resource_id (st : ClientState) : RType → String
  | .cost => st.cost_resource_id
  | .energy => st.energy_resource_id

/-- The spec's error taxonomy; the source raises at three distinct sites
(auth non-200, readings non-200, `aiohttp.ClientError`). -/
inductive ApiError
  | authFailed
  | fetchFailed
  | netError
deriving DecidableEq

/-- The environment's answer to one POST against the auth endpoint:
either a transport failure or an HTTP status plus the `token` field of
the JSON body (`result.get("token")`, absent ⇒ `none`). -/
inductive AuthResp
  | clientError
  | http (status : Nat) (token : Option String)
deriving DecidableEq

/-- `ManxUtilitiesAPI.authenticate`: lazily create the session, post the
credentials, and store the token field of a 200 response; a non-200
status raises, a transport error propagates. -/
def authenticate (st : ClientState) (resp : AuthResp) :
    ClientState × Except ApiError Unit :=
  let st := { st with session := true }
  match resp with
  | .clientError => (st, .error .netError)
  | .http status tok =>
      if status ≠ 200 then (st, .error .authFailed)
      else ({ st with token := tok }, .ok ())

/-- One entry of the response's `data` array.  The code destructures
`data["data"][0][:2]`, so only the first two fields are ever read; the
remaining elements are carried as `extra` and ignored. -/
structure DataRow where
  ts : Nat
  value : ℚ
  extra : List ℚ
deriving DecidableEq

/-- A readings response: HTTP status plus the optional `data` array of
the JSON body (`data.get("data")`, absent ⇒ `none`). -/
structure ReadResp where
  status : Nat
  data : Option (List DataRow)
deriving DecidableEq

/-- The environment's answer to one GET against the readings endpoint. -/
inductive NetResp
  | clientError
  | http (r : ReadResp)
deriving DecidableEq

/-- One GET issued against the readings endpoint: the resource it
targets, the from/to window of its query string, and the bearer token of
its Authorization header. -/
structure ReadingsRequest where
  resource : String
  window : Nat × Nat
  bearer : Option String
deriving DecidableEq

/-- Everything the outside world feeds one `get_reading` call. -/
structure FetchEnv where
  nowUtc : Nat
  authResp1 : AuthResp
  resp1 : NetResp
  authResp2 : AuthResp
  resp2 : NetResp
deriving DecidableEq

/-- Decidable equality for `Except`, needed to evaluate outcomes. -/
def exceptDecEq {ε α : Type _} [DecidableEq ε] [DecidableEq α] :
    DecidableEq (Except ε α)
  | .error x, .error y =>
      if h : x = y then .isTrue (congrArg Except.error h)
      else .isFalse (fun hc => h (Except.error.inj hc))
  | .error _, .ok _ => .isFalse (fun hc => Except.noConfusion hc)
  | .ok _, .error _ => .isFalse (fun hc => Except.noConfusion hc)
  | .ok x, .ok y =>
      if h : x = y then .isTrue (congrArg Except.ok h)
      else .isFalse (fun hc => h (Except.ok.inj hc))

instance {ε α : Type _} [DecidableEq ε] [DecidableEq α] : DecidableEq (Except ε α) :=
  exceptDecEq

/-- What one `get_reading` call produced: the final client state, the
GETs that were issued, the number of `authenticate` invocations, and the
result (`Option Reading` on success, the raised error otherwise). -/
structure FetchOutcome where
  state : ClientState
  requests : List ReadingsRequest
  authCalls : Nat
  result : Except ApiError (Option Reading)
deriving DecidableEq

/-- Lines 201–213 of `get_reading`: take the first row of the `data`
array, keep it only when its value is positive (appending it to the
history of the requested type), otherwise report "no reading". -/
def storeReading (rt : RType) (st : ClientState) (data : Option (List DataRow)) :
    ClientState × Option Reading :=
  match data with
  | some (row :: _) =>
      if 0 < row.value then
        (setHist st rt (dequeAppend HIST_MAXLEN (hist st rt) (row.ts, row.value)),
         some (row.ts, row.value))
      else (st, none)
  | _ => (st, none)

/-- Lines 139–141 of `get_reading`: authenticate first when no token is
stored.  Returns the state, how many times `authenticate` ran, and
whether the call may proceed. -/
def afterInitialAuth (st : ClientState) (env : FetchEnv) :
    (ClientState × Nat) × Except ApiError Unit :=
  if st.token = none then
    let p := authenticate st env.authResp1
    ((p.1, 1), p.2)
  else ((st, 0), .ok ())

/-- `ManxUtilitiesAPI.get_reading`, with the network interaction made
explicit.  On a 401 the client re-authenticates and retries the same URL
and query parameters once with the refreshed token; any other non-200
status raises immediately; a 200 response is handed to `storeReading`. -/
def get_reading (rt : RType) (st0 : ClientState) (env : FetchEnv) : FetchOutcome :=
  match afterInitialAuth st0 env with
  | ((st1, n), .error e) => ⟨st1, [], n, .error e⟩
  | ((st1, n), .ok ()) =>
    let w := get_time_range env.nowUtc
    let rid := resource_id st1 rt
    let req1 : ReadingsRequest := ⟨rid, w, st1.token⟩
    match env.resp1 with
    | .clientError => ⟨st1, [req1], n, .error .netError⟩
    | .http r1 =>
      if r1.status = 401 then
        match authenticate st1 env.authResp2 with
        | (st2, .error e) => ⟨st2, [req1], n + 1, .error e⟩
        | (st2, .ok _) =>
          let req2 : ReadingsRequest := ⟨rid, w, st2.token⟩
          match env.resp2 with
          | .clientError => ⟨st2, [req1, req2], n + 1, .error .netError⟩
          | .http r2 =>
            if r2.status ≠ 200 then ⟨st2, [req1, req2], n + 1, .error .fetchFailed⟩
            else
              let p := storeReading rt st2 r2.data
              ⟨p.1, [req1, req2], n + 1, .ok p.2⟩
      else if r1.status ≠ 200 then ⟨st1, [req1], n, .error .fetchFailed⟩
      else
        let p := storeReading rt st1 r1.data
        ⟨p.1, [req1], n, .ok p.2⟩

/-- `ManxUtilitiesAPI.get_latest_reading` (legacy): delegates to
`get_reading("cost")`. -/
def get_latest_reading (st : ClientState) (env : FetchEnv) : FetchOutcome :=
  get_reading .cost st env

/-- A calendar date as rendered by `strftime`: day, month, year. -/
structure DateLabel where
  day : Nat
  month : Nat
  year : Nat
deriving DecidableEq

/-- The day/month/year a `datetime` at epoch second `ts` prints. -/
def dateLabelOf (ts : Nat) : DateLabel :=
  let c := civilFromDays (ts / secsPerDay)
  ⟨c.2.2, c.2.1, c.1⟩

/-- The month/year pair rendered by the `"%B %Y"` format. -/
def monthLabelOf (ts : Nat) : Nat × Nat :=
  let c := civilFromDays (ts / secsPerDay)
  (c.2.1, c.1)

/-- The totals dictionary built by `get_historical_totals` and mirrored
by the sensor attributes.  String labels are kept as the calendar data
they render; the `current_week` label is `none` while the source holds
the empty string, and otherwise carries the `"%d %b"` rendering of the
week's Monday and the `"%d %b %Y"` rendering of its Sunday. -/
structure Totals where
  total_today : ℚ
  total_7d : ℚ
  total_month : ℚ
  today_date : DateLabel
  current_week : Option ((Nat × Nat) × DateLabel)
  current_month : Nat × Nat
deriving DecidableEq

/-- Sum of the values of the entries whose timestamp is not before
`start`: the source's
`sum(value for ts, value in history if datetime.fromtimestamp(ts) >= start)`. -/
def sumSince (start : Nat) (h : List Reading) : ℚ :=
  ((h.filter fun p => decide (start ≤ p.1)).map Prod.snd).sum

/-- `ManxUtilitiesAPI.get_historical_totals`: derive the three rolling
totals of one history, using the wall clock `current_time`
(`datetime.now()`) for every period boundary; an empty history returns
the zero dictionary untouched. -/
def get_historical_totals (h : List Reading) (current_time : Nat) : Totals :=
  let base : Totals :=
    { total_today := 0
      total_7d := 0
      total_month := 0
      today_date := dateLabelOf current_time
      current_week := none
      current_month := monthLabelOf current_time }
  match h with
  | [] => base
  | _ =>
    let ws := weekStart current_time
    { base with
      current_week := some (((dateLabelOf ws).day, (dateLabelOf ws).month),
                            dateLabelOf (ws + 6 * secsPerDay))
      total_today := round_dp 3 (sumSince (dayStart current_time) h)
      total_7d := round_dp 3 (sumSince ws h)
      total_month := round_dp 3 (sumSince (monthStart current_time) h) }

/-- The fields of `ManxUtilitiesBaseSensor` touched by the update path;
`attrs` holds the totals entries of `_attr_extra_state_attributes`. -/
structure SensorState where
  hist : List Reading
  available : Bool
  native_value : Option ℚ
  last_reading_time : Option Nat
  attrs : Totals
deriving DecidableEq

/-- `ManxUtilitiesBaseSensor._update_historical_values`: append the new
reading, then recompute the three period totals with the reading's own
timestamp interpreted as "now". -/
def update_historical_values (st : SensorState) (value : ℚ) (timestamp : Nat) :
    SensorState :=
  let h := dequeAppend HIST_MAXLEN st.hist (timestamp, value)
  let ws := weekStart timestamp
  { st with
    hist := h
    attrs := { st.attrs with
      total_today := round_dp 3 (sumSince (dayStart timestamp) h)
      today_date := dateLabelOf (dayStart timestamp)
      total_7d := round_dp 3 (sumSince ws h)
      current_week := some (((dateLabelOf ws).day, (dateLabelOf ws).month),
                            dateLabelOf (ws + 6 * secsPerDay))
      total_month := round_dp 3 (sumSince (monthStart timestamp) h)
      current_month := monthLabelOf timestamp } }

/-- `ManxUtilitiesCostSensor.async_update`, applied to the outcome of
`get_reading("cost")`: on a reading, convert pence to pounds with
`round(cost_pence / 100, 2)` and record the converted value; on `None`
or a raised error, mark the sensor unavailable. -/
def cost_async_update (st : SensorState) (reading : Except ApiError (Option Reading)) :
    SensorState :=
  match reading with
  | .ok (some (timestamp, cost_pence)) =>
      let cost_pounds := round_dp 2 (cost_pence / 100)
      let st1 := { st with native_value := some cost_pounds }
      let st2 := update_historical_values st1 cost_pounds timestamp
      { st2 with last_reading_time := some timestamp, available := true }
  | .ok none => { st with available := false }
  | .error _ => { st with available := false }

/-- `ManxUtilitiesEnergySensor.async_update`, applied to the outcome of
`get_reading("energy")`: record `round(energy_kwh, 3)`; on `None` or a
raised error, mark the sensor unavailable. -/
def energy_async_update (st : SensorState) (reading : Except ApiError (Option Reading)) :
    SensorState :=
  match reading with
  | .ok (some (timestamp, energy_kwh)) =>
      let energy_value := round_dp 3 energy_kwh
      let st1 := { st with native_value := some energy_value }
      let st2 := update_historical_values st1 energy_value timestamp
      { st2 with last_reading_time := some timestamp, available := true }
  | .ok none => { st with available := false }
  | .error _ => { st with available := false }

/-- Specification-side period sum, written as direct recursion over the
history, to compare with the filter-based production computation. -/
def inPeriodSum (start : Nat) : List Reading → ℚ
  | [] => 0
  | p :: rest => (if start ≤ p.1 then p.2 else 0) + inPeriodSum start rest

theorem sumSince_append (s : Nat) (h : List Reading) (e : Reading) :
    sumSince s (h ++ [e]) = sumSince s h + (if s ≤ e.1 then e.2 else 0) := by
  unfold sumSince
  rw [List.filter_append]
  by_cases hc : s ≤ e.1 <;> simp [List.filter_cons, hc]

theorem sumSince_nonneg (s : Nat) (h : List Reading) (hp : ∀ p ∈ h, 0 ≤ p.2) :
    0 ≤ sumSince s h := by
  unfold sumSince
  apply List.sum_nonneg
  intro x hx
  simp only [List.mem_map] at hx
  obtain ⟨p, hp2, rfl⟩ := hx
  exact hp p (List.mem_of_mem_filter hp2)

theorem sumSince_eq_zero (s : Nat) (h : List Reading) (hall : ∀ p ∈ h, p.1 < s) :
    sumSince s h = 0 := by
  unfold sumSince
  have hnil : h.filter (fun p => decide (s ≤ p.1)) = [] := by
    rw [List.filter_eq_nil_iff]
    intro p hp
    simpa using Nat.not_le.mpr (hall p hp)
  rw [hnil]
  rfl

theorem sumSince_eq_inPeriodSum (s : Nat) (h : List Reading) :
    sumSince s h = inPeriodSum s h := by
  induction h with
  | nil => rfl
  | cons p rest ih =>
    unfold sumSince at ih ⊢
    unfold inPeriodSum
    rw [List.filter_cons]
    by_cases hc : s ≤ p.1 <;> simp [hc, ih]

/-- C1: for every instant, the computed request window is a 30-minute
aligned interval one hour before now: `to` is `from` plus 29 minutes,
`from` lies in the hour one hour before now, at minute :30 when the
minute-of-hour of now minus one hour is ≥ 30 and at minute :00 otherwise;
and any two instants in the same 30-minute slot yield the identical
window pair. -/
theorem C1_request_window (now1 now2 : Nat) (h1 : 3600 ≤ now1) :
    ((get_time_range now1).2 = (get_time_range now1).1 + 29 * 60)
  ∧ (get_time_range now1).1 % 1800 = 0
  ∧ (get_time_range now1).1 / 3600 = (now1 - 3600) / 3600
  ∧ (30 ≤ (now1 - 3600) / 60 % 60 → (get_time_range now1).1 % 3600 = 1800)
  ∧ ((now1 - 3600) / 60 % 60 < 30 → (get_time_range now1).1 % 3600 = 0)
  ∧ (3600 ≤ now2 → now1 / 1800 = now2 / 1800 →
      get_time_range now1 = get_time_range now2) := by
  rw [get_time_range_eq now1, get_time_range_eq now2]
  refine ⟨by norm_num, by omega, by omega, by omega, by omega, ?_⟩
  intro hb hslot
  rw [Prod.mk.injEq]
  omega

theorem C1_request_window_witness :
    (get_time_range 7200).1 % 1800 = 0
  ∧ (get_time_range 7200).1 % 3600 = 0
  ∧ get_time_range 7200 = get_time_range 7260
  ∧ (get_time_range 5400).1 % 3600 = 1800 := by
  have h := C1_request_window 7200 7260 (by norm_num)
  have h2 := C1_request_window 5400 5400 (by norm_num)
  exact ⟨h.2.1, h.2.2.2.2.1 (by norm_num), h.2.2.2.2.2 (by norm_num) (by norm_num),
         h2.2.2.2.1 (by norm_num)⟩

theorem foldl_dequeAppend_length_le (rs : List Reading) (init : List Reading)
    (h : init.length ≤ HIST_MAXLEN) :
    (rs.foldl (dequeAppend HIST_MAXLEN) init).length ≤ HIST_MAXLEN := by
  induction rs generalizing init with
  | nil => simpa using h
  | cons r rest ih =>
      simp only [List.foldl_cons]
      exact ih _ (dequeAppend_length_le (by norm_num [HIST_MAXLEN]) h r)

/-- C3: every history reachable by appending stays within 2,880 entries,
appending below or at capacity keeps the bound, and appending to a
history of exactly 2,880 entries drops exactly the oldest entry (the
head) and keeps all others in order. -/
theorem C3_history_capacity (rs : List Reading) (x : Reading) (xs : List Reading) :
    (rs.foldl (dequeAppend HIST_MAXLEN) []).length ≤ HIST_MAXLEN
  ∧ (xs.length ≤ HIST_MAXLEN → (dequeAppend HIST_MAXLEN xs x).length ≤ HIST_MAXLEN)
  ∧ (xs.length = HIST_MAXLEN → dequeAppend HIST_MAXLEN xs x = xs.drop 1 ++ [x]) := by
  refine ⟨foldl_dequeAppend_length_le rs [] (by simp),
          fun h => dequeAppend_length_le (by norm_num [HIST_MAXLEN]) h x,
          fun h => ?_⟩
  unfold dequeAppend
  rw [if_pos (by omega), ← List.drop_one]

theorem C3_history_capacity_witness :
    (dequeAppend HIST_MAXLEN (List.replicate 2880 ((0 : Nat), (1 : ℚ))) ((1 : Nat), (2 : ℚ))).length
      ≤ HIST_MAXLEN
  ∧ dequeAppend HIST_MAXLEN (List.replicate 2880 ((0 : Nat), (1 : ℚ))) ((1 : Nat), (2 : ℚ))
      = (List.replicate 2880 ((0 : Nat), (1 : ℚ))).drop 1 ++ [((1 : Nat), (2 : ℚ))] := by
  have h := C3_history_capacity [] ((1 : Nat), (2 : ℚ)) (List.replicate 2880 ((0 : Nat), (1 : ℚ)))
  exact ⟨h.2.1 (by simp only [List.length_replicate, HIST_MAXLEN]; exact le_refl _),
         h.2.2 (by simp only [List.length_replicate, HIST_MAXLEN])⟩

/-- C7: for an empty history the totals query returns all-zero totals, an
empty week label, and day and month labels derived from the current
instant, without raising. -/
theorem C7_empty_history_totals (current_time : Nat) :
    get_historical_totals [] current_time =
      { total_today := 0
        total_7d := 0
        total_month := 0
        today_date := dateLabelOf current_time
        current_week := none
        current_month := monthLabelOf current_time } := rfl

/-- C8: the legacy `get_latest_reading` is exactly `get_reading("cost")`:
same result, same requests, same effect on state. -/
theorem C8_get_latest_reading_is_cost (st : ClientState) (env : FetchEnv) :
    get_latest_reading st env = get_reading .cost st env := rfl

/-- C9: `authenticate` is atomic on the stored token: a transport error
or a non-200 status raises and leaves the token unchanged, and a 200
response replaces the token with the response's token field. -/
theorem C9_authenticate_token_atomic (st : ClientState) (status : Nat) (tok : Option String) :
    ((authenticate st .clientError).1.token = st.token
       ∧ (authenticate st .clientError).2 = .error .netError)
  ∧ (status ≠ 200 →
       (authenticate st (.http status tok)).1.token = st.token
       ∧ (authenticate st (.http status tok)).2 = .error .authFailed)
  ∧ (authenticate st (.http 200 tok)).1.token = tok
  ∧ (authenticate st (.http 200 tok)).2 = .ok () := by
  refine ⟨⟨rfl, rfl⟩, fun h => ?_, ?_, ?_⟩
  · simp only [authenticate]
    rw [if_pos h]
    exact ⟨rfl, rfl⟩
  · simp only [authenticate]
    rw [if_neg (by simp)]
  · simp only [authenticate]
    rw [if_neg (by simp)]

theorem C9_authenticate_token_atomic_witness :
    ((authenticate ⟨"u", "p", "rc", "re", some "t0", true, [], []⟩ .clientError).1.token
        = some "t0")
  ∧ (authenticate ⟨"u", "p", "rc", "re", some "t0", true, [], []⟩ (.http 500 (some "t1"))).1.token
        = some "t0"
  ∧ (authenticate ⟨"u", "p", "rc", "re", some "t0", true, [], []⟩ (.http 200 (some "t1"))).1.token
        = some "t1" := by
  have h := C9_authenticate_token_atomic ⟨"u", "p", "rc", "re", some "t0", true, [], []⟩
    500 (some "t1")
  exact ⟨h.1.1, (h.2.1 (by norm_num)).1, h.2.2.1⟩

/-- C10: the cost sensor records `round(raw / 100, 2)` — the reading
converted from minor to major currency units — and the energy sensor
records `round(raw, 3)`; the recorded value, not the raw one, is what
enters the history and hence the rolling totals.  (The final conjunct
shows a raw pence value and its recorded conversion differ.) -/
theorem C10_sensor_unit_conversion (st : SensorState) (ts : Nat) (raw : ℚ) :
    (cost_async_update st (.ok (some (ts, raw)))).hist
        = dequeAppend HIST_MAXLEN st.hist (ts, round_dp 2 (raw / 100))
  ∧ (cost_async_update st (.ok (some (ts, raw)))).native_value
        = some (round_dp 2 (raw / 100))
  ∧ (energy_async_update st (.ok (some (ts, raw)))).hist
        = dequeAppend HIST_MAXLEN st.hist (ts, round_dp 3 raw)
  ∧ (energy_async_update st (.ok (some (ts, raw)))).native_value
        = some (round_dp 3 raw)
  ∧ round_dp 2 ((250 : ℚ) / 100) ≠ (250 : ℚ) := by
  refine ⟨rfl, rfl, rfl, rfl, ?_⟩
  with_unfolding_all decide

theorem authenticate_fields (st : ClientState) (r : AuthResp) :
    (authenticate st r).1.histCost = st.histCost
  ∧ (authenticate st r).1.histEnergy = st.histEnergy := by
  cases r with
  | clientError => exact ⟨rfl, rfl⟩
  | http s tok =>
      simp only [authenticate]
      split_ifs <;> exact ⟨rfl, rfl⟩

theorem afterInitialAuth_fields (st : ClientState) (env : FetchEnv) :
    (afterInitialAuth st env).1.1.histCost = st.histCost
  ∧ (afterInitialAuth st env).1.1.histEnergy = st.histEnergy := by
  unfold afterInitialAuth
  split_ifs
  · exact ⟨(authenticate_fields st env.authResp1).1, (authenticate_fields st env.authResp1).2⟩
  · exact ⟨rfl, rfl⟩

theorem mem_dequeAppend {cap : Nat} {xs : List Reading} {x p : Reading}
    (h : p ∈ dequeAppend cap xs x) : p ∈ xs ∨ p = x := by
  unfold dequeAppend at h
  split at h
  · rcases List.mem_append.mp h with h2 | h2
    · exact Or.inl (List.mem_of_mem_tail h2)
    · exact Or.inr (by simpa using h2)
  · rcases List.mem_append.mp h with h2 | h2
    · exact Or.inl h2
    · exact Or.inr (by simpa using h2)

theorem storeReading_pos (rt : RType) (st : ClientState) (d : Option (List DataRow))
    (hc : ∀ p ∈ st.histCost, 0 < p.2) (he : ∀ p ∈ st.histEnergy, 0 < p.2) :
    (∀ p ∈ (storeReading rt st d).1.histCost, 0 < p.2)
  ∧ (∀ p ∈ (storeReading rt st d).1.histEnergy, 0 < p.2) := by
  rcases d with _ | ⟨_ | ⟨row, rest⟩⟩
  · exact ⟨hc, he⟩
  · exact ⟨hc, he⟩
  · simp only [storeReading]
    split_ifs with hv
    · cases rt
      · refine ⟨?_, he⟩
        intro p hp
        simp only [setHist, hist] at hp
        rcases mem_dequeAppend hp with h2 | h2
        · exact hc p h2
        · rw [h2]
          exact hv
      · refine ⟨hc, ?_⟩
        intro p hp
        simp only [setHist, hist] at hp
        rcases mem_dequeAppend hp with h2 | h2
        · exact he p h2
        · rw [h2]
          exact hv
    · exact ⟨hc, he⟩

theorem get_reading_preserves_pos (rt : RType) (st : ClientState) (env : FetchEnv)
    (hc : ∀ p ∈ st.histCost, 0 < p.2) (he : ∀ p ∈ st.histEnergy, 0 < p.2) :
    (∀ p ∈ (get_reading rt st env).state.histCost, 0 < p.2)
  ∧ (∀ p ∈ (get_reading rt st env).state.histEnergy, 0 < p.2) := by
  have hA := afterInitialAuth_fields st env
  unfold get_reading
  split
  · rename_i st1 n e heq
    rw [heq] at hA
    dsimp only at hA ⊢
    rw [hA.1, hA.2]
    exact ⟨hc, he⟩
  · rename_i st1 n heq
    rw [heq] at hA
    dsimp only at hA
    have hc1 : ∀ p ∈ st1.histCost, 0 < p.2 := hA.1 ▸ hc
    have he1 : ∀ p ∈ st1.histEnergy, 0 < p.2 := hA.2 ▸ he
    cases henv : env.resp1 with
    | clientError => exact ⟨hc1, he1⟩
    | http r1 =>
        dsimp only
        split_ifs with h401 h200
        · have hB := authenticate_fields st1 env.authResp2
          split
          · rename_i st2 e heq2
            rw [heq2] at hB
            dsimp only at hB ⊢
            rw [hB.1, hB.2]
            exact ⟨hc1, he1⟩
          · rename_i st2 u heq2
            rw [heq2] at hB
            dsimp only at hB
            have hc2 : ∀ p ∈ st2.histCost, 0 < p.2 := hB.1 ▸ hc1
            have he2 : ∀ p ∈ st2.histEnergy, 0 < p.2 := hB.2 ▸ he1
            cases henv2 : env.resp2 with
            | clientError => exact ⟨hc2, he2⟩
            | http r2 =>
                dsimp only
                split_ifs with hs2
                · exact ⟨hc2, he2⟩
                · exact storeReading_pos rt st2 r2.data hc2 he2
        · exact ⟨hc1, he1⟩
        · exact storeReading_pos rt st1 r1.data hc1 he1

theorem get_reading_200 (rt : RType) (st : ClientState) (env : FetchEnv)
    (tk : String) (r : ReadResp)
    (htok : st.token = some tk) (hr : env.resp1 = .http r) (hs : r.status = 200) :
    get_reading rt st env =
      ⟨(storeReading rt st r.data).1,
       [⟨resource_id st rt, get_time_range env.nowUtc, some tk⟩], 0,
       .ok (storeReading rt st r.data).2⟩ := by
  simp only [get_reading, afterInitialAuth, htok, hr, hs]
  norm_num
  rw [if_neg (Option.some_ne_none tk)]
  dsimp only
  rw [htok]

/-- C2: a successful fetch whose `data` array opens with a non-positive
value (zero included) yields "no reading available" (`None`), not an
error, and leaves the client state — in particular both histories —
untouched; consequently recording preserves the invariant that every
stored entry has a positive value. -/
theorem C2_nonpositive_not_stored (rt : RType) (st : ClientState) (env : FetchEnv)
    (tk : String) (r : ReadResp) (row : DataRow) (rest : List DataRow)
    (htok : st.token = some tk) (hr : env.resp1 = .http r) (hs : r.status = 200)
    (hdata : r.data = some (row :: rest)) (hval : row.value ≤ 0) :
    ((get_reading rt st env).result = .ok none
  ∧ (get_reading rt st env).state = st)
  ∧ (∀ rt2 st2 env2,
      (∀ p ∈ st2.histCost, 0 < p.2) → (∀ p ∈ st2.histEnergy, 0 < p.2) →
      (∀ p ∈ (get_reading rt2 st2 env2).state.histCost, 0 < p.2)
      ∧ (∀ p ∈ (get_reading rt2 st2 env2).state.histEnergy, 0 < p.2)) := by
  have hstore : storeReading rt st r.data = (st, none) := by
    rw [hdata]
    simp only [storeReading]
    rw [if_neg (not_lt.mpr hval)]
  rw [get_reading_200 rt st env tk r htok hr hs]
  refine ⟨⟨?_, ?_⟩, fun rt2 st2 env2 hc he => get_reading_preserves_pos rt2 st2 env2 hc he⟩
  · dsimp only
    rw [hstore]
  · dsimp only
    rw [hstore]

theorem C2_nonpositive_not_stored_witness :
    ((get_reading .cost
        ⟨"u", "p", "rc", "re", some "tk", true, [(10, 7)], []⟩
        ⟨7200, .http 200 none, .http ⟨200, some [⟨20, 0, []⟩]⟩, .http 200 none,
         .http ⟨200, none⟩⟩).result = .ok none
  ∧ (get_reading .cost
        ⟨"u", "p", "rc", "re", some "tk", true, [(10, 7)], []⟩
        ⟨7200, .http 200 none, .http ⟨200, some [⟨20, 0, []⟩]⟩, .http 200 none,
         .http ⟨200, none⟩⟩).state
      = ⟨"u", "p", "rc", "re", some "tk", true, [(10, 7)], []⟩) := by
  exact (C2_nonpositive_not_stored .cost
    ⟨"u", "p", "rc", "re", some "tk", true, [(10, 7)], []⟩
    ⟨7200, .http 200 none, .http ⟨200, some [⟨20, 0, []⟩]⟩, .http 200 none,
     .http ⟨200, none⟩⟩
    "tk" ⟨200, some [⟨20, 0, []⟩]⟩ ⟨20, 0, []⟩ []
    rfl rfl rfl rfl (by norm_num)).1

theorem get_reading_401 (rt : RType) (st : ClientState) (env : FetchEnv)
    (tk : String) (r1 r2 : ReadResp) (newTok : Option String)
    (htok : st.token = some tk) (hr1 : env.resp1 = .http r1) (hs1 : r1.status = 401)
    (hau : env.authResp2 = .http 200 newTok) (hr2 : env.resp2 = .http r2) :
    get_reading rt st env =
      (if r2.status ≠ 200 then
        ⟨{ st with session := true, token := newTok },
         [⟨resource_id st rt, get_time_range env.nowUtc, some tk⟩,
          ⟨resource_id st rt, get_time_range env.nowUtc, newTok⟩], 1,
         .error .fetchFailed⟩
      else
        ⟨(storeReading rt { st with session := true, token := newTok } r2.data).1,
         [⟨resource_id st rt, get_time_range env.nowUtc, some tk⟩,
          ⟨resource_id st rt, get_time_range env.nowUtc, newTok⟩], 1,
         .ok (storeReading rt { st with session := true, token := newTok } r2.data).2⟩) := by
  simp only [get_reading, afterInitialAuth, htok, hr1, hs1, hau, hr2, authenticate]
  norm_num
  rw [if_neg (Option.some_ne_none tk)]
  dsimp only
  rw [htok]

/-- C4: when the first readings request comes back 401, the client
re-authenticates exactly once and retries the same resource, window and
query exactly once with the refreshed token, and a non-200 retry fails
with the fetch error; any other non-200 first status fails immediately
with the fetch error, with no authentication and no second request. -/
theorem C4_single_reauth_retry (rt : RType) (st : ClientState) (env : FetchEnv)
    (tk : String) (r1 r2 : ReadResp) (newTok : Option String)
    (htok : st.token = some tk) (hr1 : env.resp1 = .http r1) :
    (r1.status = 401 → env.authResp2 = .http 200 newTok → env.resp2 = .http r2 →
        (get_reading rt st env).authCalls = 1
      ∧ (get_reading rt st env).requests =
          [⟨resource_id st rt, get_time_range env.nowUtc, some tk⟩,
           ⟨resource_id st rt, get_time_range env.nowUtc, newTok⟩]
      ∧ (r2.status ≠ 200 → (get_reading rt st env).result = .error .fetchFailed))
  ∧ (r1.status ≠ 401 → r1.status ≠ 200 →
        (get_reading rt st env).result = .error .fetchFailed
      ∧ (get_reading rt st env).authCalls = 0
      ∧ (get_reading rt st env).requests =
          [⟨resource_id st rt, get_time_range env.nowUtc, some tk⟩]) := by
  constructor
  · intro hs1 hau hr2
    rw [get_reading_401 rt st env tk r1 r2 newTok htok hr1 hs1 hau hr2]
    split
    · exact ⟨rfl, rfl, fun _ => rfl⟩
    · rename_i hok
      refine ⟨rfl, rfl, fun hne => absurd hne hok⟩
  · intro hs1 hs2
    simp only [get_reading, afterInitialAuth, htok, hr1]
    rw [if_neg (Option.some_ne_none tk)]
    dsimp only
    rw [if_neg hs1, if_pos hs2, htok]
    exact ⟨rfl, rfl, rfl⟩

theorem C4_single_reauth_retry_witness :
    ((get_reading .cost ⟨"u", "p", "rc", "re", some "tk", true, [], []⟩
        ⟨7200, .http 200 none, .http ⟨401, none⟩, .http 200 (some "tk2"),
         .http ⟨500, none⟩⟩).authCalls = 1
  ∧ (get_reading .cost ⟨"u", "p", "rc", "re", some "tk", true, [], []⟩
        ⟨7200, .http 200 none, .http ⟨401, none⟩, .http 200 (some "tk2"),
         .http ⟨500, none⟩⟩).requests =
      [⟨"rc", get_time_range 7200, some "tk"⟩, ⟨"rc", get_time_range 7200, some "tk2"⟩]
  ∧ (get_reading .cost ⟨"u", "p", "rc", "re", some "tk", true, [], []⟩
        ⟨7200, .http 200 none, .http ⟨401, none⟩, .http 200 (some "tk2"),
         .http ⟨500, none⟩⟩).result = .error .fetchFailed)
  ∧ ((get_reading .cost ⟨"u", "p", "rc", "re", some "tk", true, [], []⟩
        ⟨7200, .http 200 none, .http ⟨404, none⟩, .http 200 (some "tk2"),
         .http ⟨500, none⟩⟩).result = .error .fetchFailed
  ∧ (get_reading .cost ⟨"u", "p", "rc", "re", some "tk", true, [], []⟩
        ⟨7200, .http 200 none, .http ⟨404, none⟩, .http 200 (some "tk2"),
         .http ⟨500, none⟩⟩).authCalls = 0) := by
  have h1 := C4_single_reauth_retry .cost ⟨"u", "p", "rc", "re", some "tk", true, [], []⟩
    ⟨7200, .http 200 none, .http ⟨401, none⟩, .http 200 (some "tk2"), .http ⟨500, none⟩⟩
    "tk" ⟨401, none⟩ ⟨500, none⟩ (some "tk2") rfl rfl
  have h2 := C4_single_reauth_retry .cost ⟨"u", "p", "rc", "re", some "tk", true, [], []⟩
    ⟨7200, .http 200 none, .http ⟨404, none⟩, .http 200 (some "tk2"), .http ⟨500, none⟩⟩
    "tk" ⟨404, none⟩ ⟨500, none⟩ (some "tk2") rfl rfl
  have g1 := h1.1 rfl rfl rfl
  have g2 := h2.2 (by norm_num) (by norm_num)
  exact ⟨⟨g1.1, g1.2.1, g1.2.2 (by norm_num)⟩, g2.1, g2.2.1⟩

/-- C5: on each recorded reading the three rolling totals are recomputed
from the reading's own timestamp: each total is the rounded sum of the
retained entries at or after the period start derived from that
timestamp (`update_historical_values` takes no wall-clock input at all);
and in the spec's concrete scenario — history `[(t0, 10), (t1, 5)]` and a
new reading `(t2, 5/2)` with t0, t1, t2 in one same day (Monday
2024-01-22), hence one week and month — all three totals equal 17.5. -/
theorem C5_totals_from_reading_timestamp (st : SensorState) (v : ℚ) (ts : Nat) :
    ((update_historical_values st v ts).attrs.total_today
        = round_dp 3 (inPeriodSum (dayStart ts) (dequeAppend HIST_MAXLEN st.hist (ts, v)))
   ∧ (update_historical_values st v ts).attrs.total_7d
        = round_dp 3 (inPeriodSum (weekStart ts) (dequeAppend HIST_MAXLEN st.hist (ts, v)))
   ∧ (update_historical_values st v ts).attrs.total_month
        = round_dp 3 (inPeriodSum (monthStart ts) (dequeAppend HIST_MAXLEN st.hist (ts, v))))
  ∧ ((update_historical_values
        ⟨[(1705885200, 10), (1705888800, 5)], true, none, none,
         ⟨0, 0, 0, ⟨0, 0, 0⟩, none, (0, 0)⟩⟩ (5 / 2) 1705892400).attrs.total_today = 35 / 2
   ∧ (update_historical_values
        ⟨[(1705885200, 10), (1705888800, 5)], true, none, none,
         ⟨0, 0, 0, ⟨0, 0, 0⟩, none, (0, 0)⟩⟩ (5 / 2) 1705892400).attrs.total_7d = 35 / 2
   ∧ (update_historical_values
        ⟨[(1705885200, 10), (1705888800, 5)], true, none, none,
         ⟨0, 0, 0, ⟨0, 0, 0⟩, none, (0, 0)⟩⟩ (5 / 2) 1705892400).attrs.total_month = 35 / 2) := by
  refine ⟨⟨?_, ?_, ?_⟩, ?_, ?_, ?_⟩
  · simp only [update_historical_values]
    rw [sumSince_eq_inPeriodSum]
  · simp only [update_historical_values]
    rw [sumSince_eq_inPeriodSum]
  · simp only [update_historical_values]
    rw [sumSince_eq_inPeriodSum]
  · with_unfolding_all decide
  · with_unfolding_all decide
  · with_unfolding_all decide

theorem round_dp_zero (n : Nat) : round_dp n 0 = 0 := by
  unfold round_dp
  rw [zero_mul]
  have h0 : pyRound 0 = 0 := pyRound_eq_zero_of (le_refl 0) (by norm_num)
  rw [h0]
  norm_num

/-- C6 (amended): each of the day, week and month totals is monotonically
non-decreasing when a positive reading whose timestamp keeps the same
period start is recorded into a history below capacity; a total is 0
whenever the history is empty or every retained entry precedes the
period start, but not only then: since the sum is rounded to 3 decimal
places, a total is 0 exactly when the in-period sum of (nonnegative)
values is at most 1/2000. -/
theorem C6_totals_monotone_and_zero (st : SensorState) (t ts s : Nat) (v : ℚ) :
    (st.hist.length < HIST_MAXLEN → 0 < v →
      ((dayStart ts = dayStart t →
          round_dp 3 (sumSince (dayStart t) st.hist)
            ≤ (update_historical_values st v ts).attrs.total_today)
       ∧ (weekStart ts = weekStart t →
          round_dp 3 (sumSince (weekStart t) st.hist)
            ≤ (update_historical_values st v ts).attrs.total_7d)
       ∧ (monthStart ts = monthStart t →
          round_dp 3 (sumSince (monthStart t) st.hist)
            ≤ (update_historical_values st v ts).attrs.total_month)))
  ∧ ((∀ p ∈ st.hist, 0 ≤ p.2) →
      (round_dp 3 (sumSince s st.hist) = 0 ↔ sumSince s st.hist ≤ 1 / 2000))
  ∧ (st.hist = [] ∨ (∀ p ∈ st.hist, p.1 < s) → round_dp 3 (sumSince s st.hist) = 0) := by
  refine ⟨fun hcap hv => ?_, fun hnn => ?_, fun hz => ?_⟩
  · have happ := dequeAppend_of_lt hcap (ts, v)
    have key : ∀ s2 : Nat,
        round_dp 3 (sumSince s2 st.hist)
          ≤ round_dp 3 (sumSince s2 (dequeAppend HIST_MAXLEN st.hist (ts, v))) := by
      intro s2
      rw [happ, sumSince_append]
      have hnn2 : (0 : ℚ) ≤ if s2 ≤ (ts, v).1 then (ts, v).2 else 0 := by
        split_ifs
        · exact le_of_lt hv
        · exact le_refl 0
      exact round_dp_mono 3 (le_add_of_nonneg_right hnn2)
    refine ⟨fun hd => ?_, fun hw => ?_, fun hm => ?_⟩
    · simp only [update_historical_values]
      rw [← hd]
      exact key (dayStart ts)
    · simp only [update_historical_values]
      rw [← hw]
      exact key (weekStart ts)
    · simp only [update_historical_values]
      rw [← hm]
      exact key (monthStart ts)
  · exact round_dp3_eq_zero_iff (sumSince_nonneg s st.hist hnn)
  · rcases hz with hz | hz
    · rw [hz]
      exact round_dp_zero 3
    · rw [sumSince_eq_zero s st.hist hz]
      exact round_dp_zero 3

theorem C6_totals_monotone_and_zero_witness :
    (round_dp 3 (sumSince (dayStart 172900) [(86400, 1)])
       ≤ (update_historical_values ⟨[(86400, 1)], true, none, none,
            ⟨0, 0, 0, ⟨0, 0, 0⟩, none, (0, 0)⟩⟩ 1 172900).attrs.total_today)
  ∧ (round_dp 3 (sumSince (weekStart 172900) [(86400, 1)])
       ≤ (update_historical_values ⟨[(86400, 1)], true, none, none,
            ⟨0, 0, 0, ⟨0, 0, 0⟩, none, (0, 0)⟩⟩ 1 172900).attrs.total_7d)
  ∧ (round_dp 3 (sumSince (monthStart 172900) [(86400, 1)])
       ≤ (update_historical_values ⟨[(86400, 1)], true, none, none,
            ⟨0, 0, 0, ⟨0, 0, 0⟩, none, (0, 0)⟩⟩ 1 172900).attrs.total_month)
  ∧ (round_dp 3 (sumSince 1000000000 [(86400, 1)]) = 0
       ↔ sumSince 1000000000 [(86400, 1)] ≤ 1 / 2000)
  ∧ round_dp 3 (sumSince 1000000000 [(86400, 1)]) = 0 := by
  have h := C6_totals_monotone_and_zero
    ⟨[(86400, 1)], true, none, none, ⟨0, 0, 0, ⟨0, 0, 0⟩, none, (0, 0)⟩⟩
    172900 172900 1000000000 1
  have hm := h.1 (by norm_num [HIST_MAXLEN]) (by norm_num)
  exact ⟨hm.1 rfl, hm.2.1 rfl, hm.2.2 rfl,
         h.2.1 (by intro p hp; simp at hp; subst hp; norm_num),
         h.2.2 (Or.inr (by intro p hp; simp at hp; subst hp; norm_num))⟩

/-- C6 counterexample: recording the positive value 1/2500 into an empty
history leaves a day total of 0 although the history now holds an entry
whose timestamp does not precede the day start — the totals are rounded
to 3 decimal places, so "total = 0 exactly when empty or all entries
precede the period start" fails. -/
theorem C6_zero_total_counterexample :
    (update_historical_values ⟨[], true, none, none,
        ⟨0, 0, 0, ⟨0, 0, 0⟩, none, (0, 0)⟩⟩ (1 / 2500) 86400).attrs.total_today = 0
  ∧ (update_historical_values ⟨[], true, none, none,
        ⟨0, 0, 0, ⟨0, 0, 0⟩, none, (0, 0)⟩⟩ (1 / 2500) 86400).hist = [(86400, 1 / 2500)]
  ∧ (0 : ℚ) < 1 / 2500
  ∧ dayStart 86400 ≤ 86400 := by
  have hds : dayStart 86400 = 86400 := by
    unfold dayStart secsPerDay
    omega
  have happ : dequeAppend HIST_MAXLEN [] (86400, 1 / 2500) = [(86400, 1 / 2500)] := by
    rw [dequeAppend_of_lt (by norm_num [HIST_MAXLEN])]
    rfl
  have hsum : sumSince (dayStart 86400) [(86400, 1 / 2500)] = 1 / 2500 := by
    rw [hds]
    unfold sumSince
    norm_num [List.filter]
  refine ⟨?_, ?_, by norm_num, Nat.sub_le 86400 (86400 % secsPerDay)⟩
  · simp only [update_historical_values, happ]
    rw [hsum]
    with_unfolding_all decide
  · simp only [update_historical_values, happ]
